import Mathlib

/-!
# Verification of the conv2d + batch-norm QAT fusion pass

Shallow embedding of `torch/ao/quantization/_pt2e/qat_utils.py` together with
the graph-model collaborators it uses (the `torch.fx` graph, the subgraph
rewriter and `_fold_bn_weights_into_conv_node`; those collaborators are not
part of the provided source tree, so they are modelled from the spec where
needed and each such definition is marked accordingly).

Numerics (convolution, batch normalization) are embedded over `ℝ`; tensors
are total functions over `Fin`-indexed dimensions in NCHW layout.
-/

set_option autoImplicit false

namespace QatUtils

/-! ## Graph data model

Mirrors the closed operator set of the spec (§3) and the node structure of
`torch.fx`: a node has an opcode, a call target, an ordered argument list
(argument = node reference, literal, or Python `None`), and a metadata map.
The only metadata the engine reads is the optional quantization annotation
(field `qAnnot` below, standing for the `"quantization_annotation"` key of
`node.meta`); the rest of the map is opaque and carried as a single value.
-/

/-- Node opcodes of a `torch.fx` graph (the ones this pass distinguishes). -/
inductive Op where
  | placeholder
  | call_function
  | get_attr
  | output
  deriving DecidableEq

/-- Call targets drawn from the closed operator set the source dispatches on.
`attr k` stands for the fully-qualified-name target of a `get_attr` node;
`other k` is an opaque registered operator the pass never dispatches on. -/
inductive Target where
  | convolution                      -- torch.ops.aten.convolution.default
  | batch_norm                       -- torch.ops.aten._native_batch_norm_legit.default
  | getitem                          -- operator.getitem
  | quantize_per_tensor_tensor       -- quantized_decomposed.quantize_per_tensor.tensor
  | dequantize_per_tensor_tensor     -- quantized_decomposed.dequantize_per_tensor.tensor
  | quantize_per_channel_default     -- quantized_decomposed.quantize_per_channel.default
  | dequantize_per_channel_default   -- quantized_decomposed.dequantize_per_channel.default
  | quantize_per_tensor              -- overload-agnostic OverloadPacket
  | dequantize_per_tensor
  | quantize_per_channel
  | dequantize_per_channel
  | attr (k : ℕ)
  | other (k : ℕ)
  deriving DecidableEq

/-- A node argument: a reference to another node (by identity), a scalar
literal baked into the graph, a boolean literal, or Python `None`. -/
inductive Arg where
  | node (id : ℕ)
  | lit (v : ℚ)
  | bool (b : Bool)
  | null
  deriving DecidableEq

/-- A quantization spec is opaque data to this pass; it is looked up, listed
and re-keyed but never inspected.  We model it as an opaque tag. -/
abbrev QSpec := ℕ

/-- The value stored under the `"quantization_annotation"` metadata key:
its `input_qspec_map` is an insertion-ordered map from operand (node
reference) to quantization spec, modelled as an association list. -/
structure QAnnot where
  input_qspec_map : List (Arg × QSpec)
  deriving DecidableEq

/-- A node's metadata map.  `qAnnot` is the optional value stored under the
`"quantization_annotation"` key; `rest` stands for all other entries
(stack traces, provenance), which are opaque and copied verbatim. -/
structure NodeMeta where
  qAnnot : Option QAnnot
  rest : ℕ
  deriving DecidableEq

/-- A `torch.fx` node. -/
structure Node where
  id : ℕ
  op : Op
  target : Target
  args : List Arg
  meta : NodeMeta
  deriving DecidableEq

/-- A `torch.fx` graph: an ordered list of nodes; edges are implicit in the
`Arg.node` references of each node's argument list. -/
structure Graph where
  nodes : List Node
  deriving DecidableEq

/-- Resolve a node reference to the node currently stored in the graph. -/
def Graph.find? (g : Graph) (i : ℕ) : Option Node :=
  g.nodes.find? (fun n => n.id = i)

/-- The node ids referenced by an argument list. -/
def argNodeIds (as : List Arg) : List ℕ :=
  as.filterMap (fun a => match a with | Arg.node i => some i | _ => Option.none)

/-- Modelled from the spec: `torch.fx.Graph.eliminate_dead_code` (called at
lines 310/422/477 of the source but defined outside the provided tree).
Per §3 of the spec the graph is "revalidated (dead-code eliminated,
recompiled/re-indexed) after each pass": a reverse traversal drops every
node that is not an output, not a placeholder, and not used by a node kept
so far. -/
def eliminateDeadCode (g : Graph) : Graph :=
  let step : Node → List Node × List ℕ → List Node × List ℕ := fun n acc =>
    if n.op = Op.output ∨ n.op = Op.placeholder ∨ n.id ∈ acc.2 then
      (n :: acc.1, acc.2 ++ argNodeIds n.args)
    else acc
  Graph.mk (g.nodes.foldr step ([], [])).1

/-! ## Matches and replacement records

`InternalMatch.nodes_map` maps pattern nodes to nodes of the original graph;
its values can be `None` (e.g. the `conv_bias` placeholder in a bias-free
match), which the source code explicitly guards for at line 372.  The
replacement record returned by the rewriter carries the spliced-in
replacement nodes and that map.
-/

/-- The part of `torch.fx.passes.utils.matcher_utils.InternalMatch` the
source consumes: the values of `nodes_map` in iteration (insertion) order. -/
structure MatchR where
  nodesMap : List (Option Node)

/-- The part of `torch.fx.subgraph_rewriter.ReplacedPatterns` the source
consumes: the replacement nodes spliced into the graph and the
pattern-node → original-node map (values may be `None`). -/
structure ReplacedPattern where
  replacements : List Node
  nodesMap : List (Node × Option Node)

/-! ## Filters (source lines 251–274) -/

/-- `_has_conv_bias_filter` (lines 251–263), iterating the values of
`match.nodes_map`.  A `None` value is dereferenced (`n.target`) before any
check, so it raises `AttributeError`; finding an `aten.convolution.default`
node returns whether its third argument (`args[2]`, the bias) is not
`None`; exhausting the map raises the `ValueError` of line 263. -/
def hasConvBiasFilter : List (Option Node) → Except String Bool
  | [] => Except.error "ValueError: Could not find conv node in matched conv + bn pattern"
  | Option.none :: _ => Except.error "AttributeError: NoneType has no attribute target"
  | some n :: rest =>
    if n.target = Target.convolution then
      match n.args.get? 2 with
      | some a => Except.ok (decide (a ≠ Arg.null))
      | Option.none => Except.error "IndexError: tuple index out of range"
    else hasConvBiasFilter rest

/-- `_no_conv_bias_filter` (lines 265–274): the boolean negation of
`_has_conv_bias_filter`; exceptions propagate unchanged. -/
def noConvBiasFilter (vs : List (Option Node)) : Except String Bool :=
  (hasConvBiasFilter vs).map (fun b => !b)

/-! ## `_get_conv_bn_getitem_nodes` (source lines 276–299) -/

/-- One step of the scan of `_get_conv_bn_getitem_nodes`: the three
accumulators hold the conv/bn/getitem node found so far; each `assert
conv_node is None` style check of the source becomes an `AssertionError`
result when the accumulator is already filled, and the three trailing
asserts become the final check on the empty list. -/
def getConvBnGetitemGo :
    Option Node → Option Node → Option Node → List Node → Except String (Node × Node × Node)
  | c?, b?, g?, [] =>
    match c?, b?, g? with
    | some c, some b, some g => Except.ok (c, b, g)
    | _, _, _ => Except.error "AssertionError"
  | c?, b?, g?, n :: rest =>
    if n.op ≠ Op.call_function then getConvBnGetitemGo c? b? g? rest
    else if n.target = Target.convolution then
      match c? with
      | some _ => Except.error "AssertionError"
      | Option.none => getConvBnGetitemGo (some n) b? g? rest
    else if n.target = Target.batch_norm then
      match b? with
      | some _ => Except.error "AssertionError"
      | Option.none => getConvBnGetitemGo c? (some n) g? rest
    else if n.target = Target.getitem then
      match g? with
      | some _ => Except.error "AssertionError"
      | Option.none => getConvBnGetitemGo c? b? (some n) rest
    else getConvBnGetitemGo c? b? g? rest

/-- `_get_conv_bn_getitem_nodes` (lines 276–299). -/
def getConvBnGetitemNodes (nodes : List Node) : Except String (Node × Node × Node) :=
  getConvBnGetitemGo Option.none Option.none Option.none nodes

/-- The call-function convolution nodes of a list (the nodes counted by the
first branch of `_get_conv_bn_getitem_nodes`). -/
def isConvCF (n : Node) : Bool :=
  decide (n.op = Op.call_function ∧ n.target = Target.convolution)

/-- The call-function batch-norm nodes counted by the second branch. -/
def isBnCF (n : Node) : Bool :=
  decide (n.op = Op.call_function ∧ n.target = Target.batch_norm)

/-- The call-function getitem nodes counted by the third branch. -/
def isGiCF (n : Node) : Bool :=
  decide (n.op = Op.call_function ∧ n.target = Target.getitem)

/-! ## Overload normalization of the fold match pattern (source lines 433–445)

`_fold_conv_bn_qat` retargets, in the traced match pattern, every
call-function node whose target is a specific quantize/dequantize overload
to the corresponding overload-agnostic `OverloadPacket`, as a workaround for
the convert pass not producing overload-specific ops.  The source uses four
independent `if` statements (not `elif`); the retargeted packets never equal
the other overload targets, so the sequential checks below are exactly the
source behavior. -/

/-- The per-node body of the retargeting loop (lines 436–445). -/
def retargetQDQ (n : Node) : Node :=
  if n.op ≠ Op.call_function then n
  else
    let t1 := if n.target = Target.quantize_per_tensor_tensor
      then Target.quantize_per_tensor else n.target
    let t2 := if t1 = Target.dequantize_per_tensor_tensor
      then Target.dequantize_per_tensor else t1
    let t3 := if t2 = Target.quantize_per_channel_default
      then Target.quantize_per_channel else t2
    let t4 := if t3 = Target.dequantize_per_channel_default
      then Target.dequantize_per_channel else t3
    { n with target := t4 }

/-- The whole retargeting loop `for n in match_pattern.graph.nodes: ...`
(lines 435–445), mutating the match pattern in place. -/
def normalizeQDQTargets (g : Graph) : Graph :=
  Graph.mk (g.nodes.map retargetQDQ)

/-! ## Metadata merge for the replacement conv node (source lines 383–411)

The branch of the post-processing loop taken when the matched original node
is the convolution.  In source order:
* line 384 copies the whole metadata map onto the replacement conv node;
* line 388 sets the replacement's args to its first three (input, weight,
  bias) followed by the original's literal args (stride, padding, dilation,
  transposed, output padding, groups);
* line 393 indexes `original_node.meta["quantization_annotation"]` — a
  missing key raises `KeyError` *before* the membership guard of line 394,
  which is therefore unreachable;
* lines 397–411 re-key the operand-ordered spec list onto the new args:
  `all_configs[0][1]` / `all_configs[1][1]` raise `IndexError` when the
  original annotation has fewer than two entries, and the bias entry is
  added only under `len(args) > 2 and len(all_configs) > 2` (line 408; the
  diagnostic `print` of line 407 is I/O and has no effect on the result).
-/

/-- The conv branch of the metadata-merge loop, returning the replacement
conv node's new metadata and argument list. -/
def convBranchMerge (origMeta : NodeMeta) (origArgs replArgs : List Arg) :
    Except String (NodeMeta × List Arg) :=
  -- line 388 (line 384 is the meta copy, the basis of the record update below)
  let newArgs := replArgs.take 3 ++ origArgs.drop 3
  -- line 393: dict lookup, raises KeyError when the key is absent
  match origMeta.qAnnot with
  | Option.none => Except.error "KeyError: quantization_annotation"
  | some ann =>
    -- line 394: membership guard (dead: the lookup above already raised)
    if origMeta.qAnnot = Option.none then
      Except.ok (origMeta, newArgs)
    else
      let allConfigs := ann.input_qspec_map
      match newArgs.get? 0, allConfigs.get? 0, newArgs.get? 1, allConfigs.get? 1 with
      | some a0, some c0, some a1, some c1 =>
        let base := [(a0, c0.2), (a1, c1.2)]
        let qmap :=
          if 2 < newArgs.length ∧ 2 < allConfigs.length then
            match newArgs.get? 2, allConfigs.get? 2 with
            | some a2, some c2 => base ++ [(a2, c2.2)]
            | _, _ => base
          else base
        Except.ok ({ origMeta with qAnnot := some (QAnnot.mk qmap) }, newArgs)
      | _, _, _, _ => Except.error "IndexError: list index out of range"

/-- Replace the metadata and args of the node with the given id. -/
def updateNode (g : Graph) (i : ℕ) (meta : NodeMeta) (args : List Arg) : Graph :=
  Graph.mk (g.nodes.map (fun n => if n.id = i then { n with meta := meta, args := args } else n))

/-- Replace only the metadata of the node with the given id. -/
def updateNodeMeta (g : Graph) (i : ℕ) (meta : NodeMeta) : Graph :=
  Graph.mk (g.nodes.map (fun n => if n.id = i then { n with meta := meta } else n))

/-- The step-(3) post-processing of one replacement record in
`_fuse_conv_bn_qat` (lines 364–415): locate the replacement conv/bn/getitem
triple, then walk `nodes_map`, skipping `None` originals (line 372) and
originals that still have node-valued args (placeholder pass-throughs,
line 381), and copy/rebuild metadata onto the corresponding replacement
node.  The three target checks of lines 383/412/414 are mutually exclusive,
so the chained form below matches the three independent `if`s. -/
def postProcessOne (g : Graph) (r : ReplacedPattern) : Except String Graph :=
  match getConvBnGetitemNodes r.replacements with
  | Except.error e => Except.error e
  | Except.ok (convN, bnN, giN) =>
    r.nodesMap.foldlM (fun g pr =>
      match pr.2 with
      | Option.none => Except.ok g
      | some orig =>
        if orig.args.any (fun a => match a with | Arg.node _ => true | _ => false) then
          Except.ok g
        else if orig.target = Target.convolution then
          match convBranchMerge orig.meta orig.args convN.args with
          | Except.error e => Except.error e
          | Except.ok (meta', args') => Except.ok (updateNode g convN.id meta' args')
        else if orig.target = Target.batch_norm then
          Except.ok (updateNodeMeta g bnN.id orig.meta)
        else if orig.target = Target.getitem then
          Except.ok (updateNodeMeta g giN.id orig.meta)
        else Except.ok g) g

/-- The post-processing loop over all replacement records (line 364). -/
def postProcessAll (rs : List ReplacedPattern) (g : Graph) : Except String Graph :=
  rs.foldlM postProcessOne g

/-! ## The subgraph rewriter (external collaborator)

`replace_pattern_with_filters` lives in `torch.fx.subgraph_rewriter`, which
is not part of the provided source tree.  Following the spec (§4.2 Matcher,
§4.3 Filter Evaluator, §4.4 Rewriter), it is modelled parametrically in the
matcher `M` and the single-match rewriter `AR`; a graph with zero matches is
returned unchanged with no replacement records (§6: "Safe to call on a
graph with no matches (no-op)"). -/

/-- Combine the filter predicates of a match with AND (spec §4.3); a filter
that raises aborts the pass. -/
def runMatchFilters (fs : List (MatchR → Except String Bool)) (mt : MatchR) :
    Except String Bool :=
  fs.foldlM (fun acc f => (f mt).map (fun b => acc && b)) true

/-- Modelled from the spec: `torch.fx.subgraph_rewriter.replace_pattern_with_filters`
(imported at line 7 of the source, defined outside the provided tree).
`M target pattern` enumerates candidate matches, `AR target repl match`
splices a fresh copy of the replacement graph for one accepted match, and
the accepted matches are applied in order. -/
def replacePatternWithFilters (M : Graph → Graph → List MatchR)
    (AR : Graph → Graph → MatchR → Graph × ReplacedPattern)
    (g pat repl : Graph) (fs : List (MatchR → Except String Bool)) :
    Except String (Graph × List ReplacedPattern) :=
  (M g pat).foldlM (fun acc mt =>
    match runMatchFilters fs mt with
    | Except.error e => Except.error e
    | Except.ok keep =>
      if keep then
        let gr := AR acc.1 repl mt
        Except.ok (gr.1, acc.2 ++ [gr.2])
      else Except.ok acc) (g, [])

/-! ## `_fuse_conv_bn_qat` (source lines 301–416)

The traced pattern and replacement graphs are produced by the external
tracer (`_get_aten_graph_module`, via `torch._dynamo.export`), so they are
parameters here.  `m.recompile()` regenerates Python code from the graph
and is observably the identity on the node list, so it is not represented.
-/

/-- `_fuse_conv_bn_qat`, parametric in the external matcher/rewriter and the
externally traced pattern graphs. -/
def fuseConvBnQat (M : Graph → Graph → List MatchR)
    (AR : Graph → Graph → MatchR → Graph × ReplacedPattern)
    (matchPat replWithBias replNoBias : Graph) (m : Graph) : Except String Graph :=
  -- lines 310–311
  let g1 := eliminateDeadCode m
  -- Step (1): replace patterns with conv bias (lines 321–332)
  match replacePatternWithFilters M AR g1 matchPat replWithBias
      [fun mt => hasConvBiasFilter mt.nodesMap] with
  | Except.error e => Except.error e
  | Except.ok (g2, r1) =>
    -- Step (2): replace patterns without conv bias (lines 336–347)
    match replacePatternWithFilters M AR g2 matchPat replNoBias
        [fun mt => noConvBiasFilter mt.nodesMap] with
    | Except.error e => Except.error e
    | Except.ok (g3, r2) =>
      -- Step (3): post processing (lines 364–415)
      postProcessAll (r1 ++ r2) g3

/-! ## `_fold_conv_bn_qat` (source lines 418–479)

The fold stage additionally needs the module's constant storage: `get_attr`
nodes name stored tensors.  Weight-shaped constants are indexed by output
channel (`Fin C`) and a flattened remainder (`Fin K`), per-channel vectors
by `Fin C` alone; `wconsts` and `vconsts` map an attribute name to the
corresponding stored value. -/

/-- A `torch.fx.GraphModule`: a graph plus its constant storage. -/
structure GraphModule (C K : ℕ) where
  graph : Graph
  wconsts : ℕ → Fin C → Fin K → ℝ
  vconsts : ℕ → Fin C → ℝ

/-- Rewire every reference to one of the erased getitem nodes to the conv
node that now produces the value directly. -/
def remapArgsTo (giIds : List ℕ) (convId : ℕ) (n : Node) : Node :=
  { n with args := n.args.map (fun a =>
      match a with
      | Arg.node i => if i ∈ giIds then Arg.node convId else a
      | _ => a) }

/-- Modelled from the spec: `_fold_bn_weights_into_conv_node` (imported at
line 10 from `.utils`, defined outside the provided tree).  Per spec §4.6:
read the batch-norm parameters (`bn.args[1..4]` are the weight / bias /
running-mean / running-var attributes of the `_native_batch_norm_legit`
call and `bn.args[7]` its epsilon literal), compute

  scale_factor  = bn_weight / sqrt(bn_running_var + eps)
  folded_weight = weight * scale_factor   (broadcast over output channels)
  folded_bias   = bn_bias + (bias - bn_running_mean) * scale_factor,

store both back into the constant storage replacing the convolution's
weight and bias, then delete the normalization node and its getitem
dependents, rewiring their consumers to the convolution output. -/
noncomputable def foldBnWeightsIntoConvNode {C K : ℕ} (gm : GraphModule C K)
    (convNode wNode biasNode bnNode : Node) : Except String (GraphModule C K) :=
  match wNode.target, biasNode.target with
  | Target.attr wName, Target.attr bName =>
    match bnNode.args.get? 1, bnNode.args.get? 2, bnNode.args.get? 3,
        bnNode.args.get? 4, bnNode.args.get? 7 with
    | some (Arg.node gwId), some (Arg.node gbId), some (Arg.node mId),
        some (Arg.node vId), some (Arg.lit eps) =>
      match gm.graph.find? gwId, gm.graph.find? gbId,
          gm.graph.find? mId, gm.graph.find? vId with
      | some gwN, some gbN, some mN, some vN =>
        match gwN.target, gbN.target, mN.target, vN.target with
        | Target.attr gwName, Target.attr gbName, Target.attr mName, Target.attr vName =>
          let scale : Fin C → ℝ := fun c =>
            gm.vconsts gwName c / Real.sqrt (gm.vconsts vName c + (eps : ℝ))
          let foldedW : Fin C → Fin K → ℝ := fun c k => gm.wconsts wName c k * scale c
          let foldedB : Fin C → ℝ := fun c =>
            gm.vconsts gbName c + (gm.vconsts bName c - gm.vconsts mName c) * scale c
          let giIds := (gm.graph.nodes.filter (fun n =>
            decide (n.target = Target.getitem ∧ n.args.get? 0 = some (Arg.node bnNode.id)))).map Node.id
          let newNodes := (gm.graph.nodes.filter (fun n =>
            decide (¬ (n.id = bnNode.id ∨ n.id ∈ giIds)))).map (remapArgsTo giIds convNode.id)
          Except.ok { graph := Graph.mk newNodes,
                      wconsts := fun nm => if nm = wName then foldedW else gm.wconsts nm,
                      vconsts := fun nm => if nm = bName then foldedB else gm.vconsts nm }
        | _, _, _, _ => Except.error "fold: batch norm parameter is not a stored attribute"
      | _, _, _, _ => Except.error "fold: dangling batch norm parameter reference"
    | _, _, _, _, _ => Except.error "fold: unexpected batch norm argument list"
  | _, _ => Except.error "fold: weight or bias is not a stored attribute"

/-- The body of the `for r in replacements` loop of step (2) of
`_fold_conv_bn_qat` (lines 452–475): locate the conv/bn/getitem triple,
trace the convolution's weight operand back through its
dequantize → quantize chain to the stored weight (each `assert` of the
source becomes an `AssertionError` result), check the bias operand is a
node, then fold the batch-norm weights into the convolution. -/
noncomputable def foldStep {C K : ℕ} (gm : GraphModule C K) (r : ReplacedPattern) :
    Except String (GraphModule C K) :=
  match getConvBnGetitemNodes r.replacements with
  | Except.error e => Except.error e
  | Except.ok (convNode, bnNode, _) =>
    -- conv_weight_dq = conv_node.args[1]; assert isinstance(conv_weight_dq, Node)
    match convNode.args.get? 1 with
    | some (Arg.node dqId) =>
      match gm.graph.find? dqId with
      | some dqNode =>
        if dqNode.target = Target.dequantize_per_tensor_tensor ∨
            dqNode.target = Target.dequantize_per_channel_default then
          -- conv_weight_q = conv_weight_dq.args[0]; assert isinstance(..., Node)
          match dqNode.args.get? 0 with
          | some (Arg.node qId) =>
            match gm.graph.find? qId with
            | some qNode =>
              if qNode.target = Target.quantize_per_tensor_tensor ∨
                  qNode.target = Target.quantize_per_channel_default then
                -- conv_weight = conv_weight_q.args[0]; assert op == "get_attr"
                match qNode.args.get? 0 with
                | some (Arg.node wId) =>
                  match gm.graph.find? wId with
                  | some wNode =>
                    if wNode.op = Op.get_attr then
                      -- conv_bias = conv_node.args[2]; assert isinstance(..., Node)
                      match convNode.args.get? 2 with
                      | some (Arg.node bId) =>
                        match gm.graph.find? bId with
                        | some biasNode =>
                          foldBnWeightsIntoConvNode gm convNode wNode biasNode bnNode
                        | Option.none => Except.error "fold: dangling bias reference"
                      | _ => Except.error "AssertionError"
                    else Except.error "AssertionError"
                  | Option.none => Except.error "fold: dangling weight reference"
                | _ => Except.error "AssertionError"
              else Except.error "AssertionError"
            | Option.none => Except.error "fold: dangling quantize reference"
          | _ => Except.error "AssertionError"
        else Except.error "AssertionError"
      | Option.none => Except.error "fold: dangling dequantize reference"
    | _ => Except.error "AssertionError"

/-- `_fold_conv_bn_qat` (lines 418–479), parametric in the external
matcher/rewriter and the four externally traced pattern graphs (the
per-channel and per-tensor match patterns and their folded replacements).
The loop over `is_per_channel in [True, False]` is unrolled; each match
pattern goes through the overload retargeting of lines 435–445 before
matching. -/
noncomputable def foldConvBnQat {C K : ℕ} (M : Graph → Graph → List MatchR)
    (AR : Graph → Graph → MatchR → Graph × ReplacedPattern)
    (patPC patPT replPC replPT : Graph) (gm : GraphModule C K) :
    Except String (GraphModule C K) :=
  -- lines 422–423
  let g1 := eliminateDeadCode gm.graph
  -- Step (1): iteration is_per_channel = True
  match replacePatternWithFilters M AR g1 (normalizeQDQTargets patPC) replPC [] with
  | Except.error e => Except.error e
  | Except.ok (g2, r1) =>
    -- Step (1): iteration is_per_channel = False
    match replacePatternWithFilters M AR g2 (normalizeQDQTargets patPT) replPT [] with
    | Except.error e => Except.error e
    | Except.ok (g3, r2) =>
      -- Step (2): fold BN weights into conv, one replacement at a time
      match (r1 ++ r2).foldlM foldStep { gm with graph := g3 } with
      | Except.error e => Except.error e
      | Except.ok gm4 =>
        -- lines 477–478
        Except.ok { gm4 with graph := eliminateDeadCode gm4.graph }

/-! ## Numeric semantics of the pattern functions (source lines 40–108)

Tensors are NCHW-indexed total functions into `ℝ`.  `F.conv2d` with its
default stride 1 / padding 0 / dilation 1 produces a `(H+1-KH) × (W+1-KW)`
spatial output; `F.batch_norm(..., training=True)` normalizes each channel
by the *batch* statistics of its input (the running statistics are updated
in place as a side effect and do not enter the returned value, so they are
carried as unused parameters here), with the default / explicitly passed
epsilon `1e-5`. -/

/-- `F.conv2d(x, w, b)` with default stride/padding/dilation. -/
noncomputable def conv2d {N Cin Cout H W KH KW : ℕ}
    (x : Fin N → Fin Cin → Fin H → Fin W → ℝ)
    (w : Fin Cout → Fin Cin → Fin KH → Fin KW → ℝ)
    (b : Fin Cout → ℝ)
    (n : Fin N) (co : Fin Cout) (i : Fin (H + 1 - KH)) (j : Fin (W + 1 - KW)) : ℝ :=
  b co + ∑ ci : Fin Cin, ∑ ki : Fin KH, ∑ kj : Fin KW,
    x n ci ⟨i.1 + ki.1, by have h1 := i.2; have h2 := ki.2; omega⟩
          ⟨j.1 + kj.1, by have h1 := j.2; have h2 := kj.2; omega⟩
      * w co ci ki kj

/-- Per-channel batch mean over the `(N, OH, OW)` positions. -/
noncomputable def bnMean {N C OH OW : ℕ}
    (y : Fin N → Fin C → Fin OH → Fin OW → ℝ) (c : Fin C) : ℝ :=
  (∑ n, ∑ i, ∑ j, y n c i j) / (N * OH * OW : ℕ)

/-- Per-channel (biased) batch variance over the `(N, OH, OW)` positions. -/
noncomputable def bnVar {N C OH OW : ℕ}
    (y : Fin N → Fin C → Fin OH → Fin OW → ℝ) (c : Fin C) : ℝ :=
  (∑ n, ∑ i, ∑ j, (y n c i j - bnMean y c) ^ 2) / (N * OH * OW : ℕ)

/-- `F.batch_norm(y, running_mean, running_var, weight, bias, training=True, eps)`:
normalize by batch statistics, then apply the affine step. -/
noncomputable def batchNormTrain {N C OH OW : ℕ}
    (y : Fin N → Fin C → Fin OH → Fin OW → ℝ)
    (_runningMean _runningVar g be : Fin C → ℝ) (eps : ℝ)
    (n : Fin N) (c : Fin C) (i : Fin OH) (j : Fin OW) : ℝ :=
  (y n c i j - bnMean y c) / Real.sqrt (bnVar y c + eps) * g c + be c

/-- `_conv2d_bn_pattern` (lines 40–51): convolution followed by batch norm
in training mode (with `F.batch_norm`'s default `eps = 1e-5`). -/
noncomputable def convBnPattern {N Cin Cout H W KH KW : ℕ}
    (x : Fin N → Fin Cin → Fin H → Fin W → ℝ)
    (convWeight : Fin Cout → Fin Cin → Fin KH → Fin KW → ℝ)
    (convBias bnWeight bnBias bnRunningMean bnRunningVar : Fin Cout → ℝ)
    (n : Fin N) (c : Fin Cout) (i : Fin (H + 1 - KH)) (j : Fin (W + 1 - KW)) : ℝ :=
  batchNormTrain (conv2d x convWeight convBias)
    bnRunningMean bnRunningVar bnWeight bnBias (1e-5) n c i j

/-- `scale_factor = bn_weight / torch.sqrt(bn_running_var + bn_eps)`
(lines 68–70, with the hard-coded `bn_eps = 1e-5`). -/
noncomputable def scaleFactor {C : ℕ} (bnWeight bnRunningVar : Fin C → ℝ) (c : Fin C) : ℝ :=
  bnWeight c / Real.sqrt (bnRunningVar c + 1e-5)

/-- `_qat_conv2d_bn_pattern` (lines 53–81): scale the weight per output
channel (`weight_shape = [-1, 1, 1, 1]`), run the convolution with a zero
bias, divide the result per channel (`bias_shape = [1, -1, 1, 1]`), re-add
the conv bias per channel, then batch-norm in training mode. -/
noncomputable def qatConvBnPattern {N Cin Cout H W KH KW : ℕ}
    (x : Fin N → Fin Cin → Fin H → Fin W → ℝ)
    (convWeight : Fin Cout → Fin Cin → Fin KH → Fin KW → ℝ)
    (convBias bnWeight bnBias bnRunningMean bnRunningVar : Fin Cout → ℝ)
    (n : Fin N) (c : Fin Cout) (i : Fin (H + 1 - KH)) (j : Fin (W + 1 - KW)) : ℝ :=
  batchNormTrain
    (fun n' c' i' j' =>
      conv2d x
        (fun co ci ki kj => convWeight co ci ki kj * scaleFactor bnWeight bnRunningVar co)
        (fun _ => 0) n' c' i' j'
        / scaleFactor bnWeight bnRunningVar c' + convBias c')
    bnRunningMean bnRunningVar bnWeight bnBias (1e-5) n c i j

/-! ## Specification predicate for the fold step

What `_fold_conv_bn_qat`'s per-replacement fold is claimed to achieve: the
replacement subgraph's batch-norm node is entirely absent afterwards, and
the stored weight/bias named by the convolution's operand chain equal the
closed-form fold of the old stored values within `1e-4` relative
tolerance.  The attribute names are recovered from the graph: the weight
through the convolution's dequantize → quantize chain, the bias from its
third operand, and the four batch-norm parameters from the batch-norm
node's arguments. -/
def FoldStepSpec {C K : ℕ} (gm gm' : GraphModule C K) (r : ReplacedPattern) : Prop :=
  ∃ conv bn gi, getConvBnGetitemNodes r.replacements = Except.ok (conv, bn, gi) ∧
    (∀ n ∈ gm'.graph.nodes, n.id ≠ bn.id) ∧
    ∃ (wName bName gwName gbName mName vName : ℕ) (eps : ℚ),
      (∃ dqId qId wId dqNode qNode wNode,
        conv.args.get? 1 = some (Arg.node dqId) ∧
        gm.graph.find? dqId = some dqNode ∧
        (dqNode.target = Target.dequantize_per_tensor_tensor ∨
         dqNode.target = Target.dequantize_per_channel_default) ∧
        dqNode.args.get? 0 = some (Arg.node qId) ∧
        gm.graph.find? qId = some qNode ∧
        (qNode.target = Target.quantize_per_tensor_tensor ∨
         qNode.target = Target.quantize_per_channel_default) ∧
        qNode.args.get? 0 = some (Arg.node wId) ∧
        gm.graph.find? wId = some wNode ∧
        wNode.op = Op.get_attr ∧ wNode.target = Target.attr wName) ∧
      (∃ bId biasNode,
        conv.args.get? 2 = some (Arg.node bId) ∧
        gm.graph.find? bId = some biasNode ∧ biasNode.target = Target.attr bName) ∧
      (∃ gwId gbId mId vId gwN gbN mN vN,
        bn.args.get? 1 = some (Arg.node gwId) ∧ gm.graph.find? gwId = some gwN ∧
          gwN.target = Target.attr gwName ∧
        bn.args.get? 2 = some (Arg.node gbId) ∧ gm.graph.find? gbId = some gbN ∧
          gbN.target = Target.attr gbName ∧
        bn.args.get? 3 = some (Arg.node mId) ∧ gm.graph.find? mId = some mN ∧
          mN.target = Target.attr mName ∧
        bn.args.get? 4 = some (Arg.node vId) ∧ gm.graph.find? vId = some vN ∧
          vN.target = Target.attr vName ∧
        bn.args.get? 7 = some (Arg.lit eps)) ∧
      (∀ c k, |gm'.wconsts wName c k -
          gm.wconsts wName c k *
            (gm.vconsts gwName c / Real.sqrt (gm.vconsts vName c + (eps : ℝ)))| ≤
        1e-4 * |gm.wconsts wName c k *
            (gm.vconsts gwName c / Real.sqrt (gm.vconsts vName c + (eps : ℝ)))|) ∧
      (∀ c, |gm'.vconsts bName c -
          (gm.vconsts gbName c + (gm.vconsts bName c - gm.vconsts mName c) *
            (gm.vconsts gwName c / Real.sqrt (gm.vconsts vName c + (eps : ℝ))))| ≤
        1e-4 * |gm.vconsts gbName c + (gm.vconsts bName c - gm.vconsts mName c) *
            (gm.vconsts gwName c / Real.sqrt (gm.vconsts vName c + (eps : ℝ)))|)

/-! ## Concrete instances used by witnesses and counterexamples -/

/-- A node with empty metadata. -/
def mkNode (i : ℕ) (o : Op) (t : Target) (as : List Arg) : Node :=
  Node.mk i o t as (NodeMeta.mk Option.none 0)

/-- A matcher finding no matches anywhere. -/
def M0 : Graph → Graph → List MatchR := fun _ _ => []

/-- A rewriter (never invoked when there are no matches). -/
def AR0 : Graph → Graph → MatchR → Graph × ReplacedPattern :=
  fun g _ _ => (g, ReplacedPattern.mk [] [])

/-- An empty pattern graph. -/
def gEmpty : Graph := Graph.mk []

/-- A graph with one dead call-function node (node 1 has no users). -/
def deadNodeGraph : Graph := Graph.mk
  [mkNode 0 Op.placeholder (Target.other 0) [],
   mkNode 1 Op.call_function (Target.other 1) [Arg.node 0],
   mkNode 2 Op.output (Target.other 2) [Arg.node 0]]

/-- `deadNodeGraph` after dead-code elimination. -/
def deadNodeGraphDce : Graph := Graph.mk
  [mkNode 0 Op.placeholder (Target.other 0) [],
   mkNode 2 Op.output (Target.other 2) [Arg.node 0]]

/-- A graph with two dead call-function nodes. -/
def deadNodeGraph2 : Graph := Graph.mk
  [mkNode 3 Op.placeholder (Target.other 0) [],
   mkNode 4 Op.call_function (Target.other 1) [Arg.node 3],
   mkNode 5 Op.call_function (Target.other 2) [Arg.node 3],
   mkNode 6 Op.output (Target.other 3) [Arg.node 3]]

/-- `deadNodeGraph2` wrapped in a module with trivial constant storage. -/
def gm10 : GraphModule 1 1 :=
  GraphModule.mk deadNodeGraph2 (fun _ _ _ => 0) (fun _ _ => 0)

/-- A dead-code-free graph wrapped in a module. -/
def gmStable : GraphModule 1 1 :=
  GraphModule.mk deadNodeGraphDce (fun _ _ _ => 0) (fun _ _ => 0)

/-- A quantized conv + bn + getitem target graph in the shape the fold
stage expects: the convolution's weight operand is a dequantize whose
input is a quantize of a stored attribute, its bias operand is a stored
attribute, and the batch-norm node references its four stored parameter
tensors and carries the `momentum`/`eps` literals of
`_native_batch_norm_legit`. -/
def gmW : GraphModule 1 1 :=
  GraphModule.mk
    (Graph.mk
      [mkNode 1 Op.placeholder (Target.other 0) [],
       mkNode 5 Op.get_attr (Target.attr 0) [],
       mkNode 4 Op.call_function Target.quantize_per_tensor_tensor [Arg.node 5],
       mkNode 2 Op.call_function Target.dequantize_per_tensor_tensor [Arg.node 4],
       mkNode 3 Op.get_attr (Target.attr 1) [],
       mkNode 10 Op.call_function Target.convolution
         [Arg.node 1, Arg.node 2, Arg.node 3,
          Arg.lit 1, Arg.lit 0, Arg.lit 1, Arg.bool false, Arg.lit 0, Arg.lit 1],
       mkNode 6 Op.get_attr (Target.attr 2) [],
       mkNode 7 Op.get_attr (Target.attr 3) [],
       mkNode 8 Op.get_attr (Target.attr 4) [],
       mkNode 9 Op.get_attr (Target.attr 5) [],
       mkNode 11 Op.call_function Target.batch_norm
         [Arg.node 10, Arg.node 6, Arg.node 7, Arg.node 8, Arg.node 9,
          Arg.bool true, Arg.lit (1 / 10), Arg.lit (1 / 100000)],
       mkNode 12 Op.call_function Target.getitem [Arg.node 11, Arg.lit 0],
       mkNode 13 Op.output (Target.other 1) [Arg.node 12]])
    (fun _ _ _ => 2) (fun _ _ => 1)

/-- The replacement record for the matched subgraph of `gmW`. -/
def rW : ReplacedPattern :=
  ReplacedPattern.mk
    [mkNode 10 Op.call_function Target.convolution
       [Arg.node 1, Arg.node 2, Arg.node 3,
        Arg.lit 1, Arg.lit 0, Arg.lit 1, Arg.bool false, Arg.lit 0, Arg.lit 1],
     mkNode 11 Op.call_function Target.batch_norm
       [Arg.node 10, Arg.node 6, Arg.node 7, Arg.node 8, Arg.node 9,
        Arg.bool true, Arg.lit (1 / 10), Arg.lit (1 / 100000)],
     mkNode 12 Op.call_function Target.getitem [Arg.node 11, Arg.lit 0]]
    []

/-- The result of the fold step on `gmW`. -/
noncomputable def gmW' : GraphModule 1 1 :=
  ((foldStep gmW rW).toOption).getD gmW

/-- A metadata map whose annotation has a single quantization spec. -/
def singleSpecMeta : NodeMeta :=
  NodeMeta.mk (some (QAnnot.mk [(Arg.node 0, 7)])) 0

/-- A metadata map whose annotation has three quantization specs
(activation, weight, bias). -/
def threeSpecMeta : NodeMeta :=
  NodeMeta.mk (some (QAnnot.mk [(Arg.node 0, 7), (Arg.node 1, 8), (Arg.node 2, 9)])) 0

/-- The all-literal argument list of an original convolution node after the
rewriter erased its node-valued args (bias erased to `None`). -/
def convOrigArgs : List Arg :=
  [Arg.lit 1, Arg.lit 2, Arg.null, Arg.lit 1, Arg.lit 0, Arg.lit 1,
   Arg.bool false, Arg.lit 0, Arg.lit 1]

/-- The first three (node-valued) arguments of a replacement convolution. -/
def convReplArgs : List Arg := [Arg.node 1, Arg.node 2, Arg.node 3]

/-- `convReplArgs.take 3 ++ convOrigArgs.drop 3`: the rebuilt argument list
of the replacement convolution (line 388). -/
def convNewArgs : List Arg :=
  [Arg.node 1, Arg.node 2, Arg.node 3, Arg.lit 1, Arg.lit 0, Arg.lit 1,
   Arg.bool false, Arg.lit 0, Arg.lit 1]

/-- A small pattern graph containing one overload-specific quantize node,
one unrelated call-function node and one placeholder. -/
def qdqPatternGraph : Graph := Graph.mk
  [mkNode 0 Op.call_function Target.quantize_per_tensor_tensor [Arg.node 9],
   mkNode 1 Op.call_function (Target.other 5) [],
   mkNode 2 Op.placeholder Target.quantize_per_channel_default []]

/-- A constant `1` tensor with all dimensions of size one. -/
def oneT : Fin 1 → Fin 1 → Fin 1 → Fin 1 → ℝ := fun _ _ _ _ => 1

/-- A constant `1` per-channel vector with one channel. -/
def oneV : Fin 1 → ℝ := fun _ => 1

/-- A constant `0` per-channel vector with one channel. -/
def zeroV : Fin 1 → ℝ := fun _ => 0

/-- A replacement-node list with exactly one call-function conv / bn /
getitem node, plus a `get_attr` node that the scan must ignore. -/
def cbgeList : List Node :=
  [mkNode 0 Op.call_function Target.convolution [],
   mkNode 1 Op.call_function Target.batch_norm [],
   mkNode 2 Op.call_function Target.getitem [],
   mkNode 3 Op.get_attr Target.convolution []]

/-! # Theorems -/

/-- C4: whenever the has-bias filter is defined (returns a boolean rather
than raising), the no-bias filter is defined too and returns the opposite
boolean, so every matched occurrence passes exactly one of the two filters:
the replacement branches of `_fuse_conv_bn_qat` are mutually exclusive and
jointly exhaustive. -/
theorem conv_bias_filters_opposite (vs : List (Option Node))
    (h : ∃ b, hasConvBiasFilter vs = Except.ok b) :
    (hasConvBiasFilter vs = Except.ok true ∧ noConvBiasFilter vs = Except.ok false) ∨
    (hasConvBiasFilter vs = Except.ok false ∧ noConvBiasFilter vs = Except.ok true) := by
  obtain ⟨b, hb⟩ := h
  cases b
  · exact Or.inr ⟨hb, by simp [noConvBiasFilter, hb, Except.map]⟩
  · exact Or.inl ⟨hb, by simp [noConvBiasFilter, hb, Except.map]⟩

/-- Witness for C4 at a one-node match map containing a convolution whose
bias operand is `None`. -/
theorem conv_bias_filters_opposite_witness :
    (∃ b, hasConvBiasFilter
      [some (mkNode 0 Op.call_function Target.convolution
        [Arg.node 1, Arg.node 2, Arg.null])] = Except.ok b) ∧
    ((hasConvBiasFilter
        [some (mkNode 0 Op.call_function Target.convolution
          [Arg.node 1, Arg.node 2, Arg.null])] = Except.ok true ∧
      noConvBiasFilter
        [some (mkNode 0 Op.call_function Target.convolution
          [Arg.node 1, Arg.node 2, Arg.null])] = Except.ok false) ∨
     (hasConvBiasFilter
        [some (mkNode 0 Op.call_function Target.convolution
          [Arg.node 1, Arg.node 2, Arg.null])] = Except.ok false ∧
      noConvBiasFilter
        [some (mkNode 0 Op.call_function Target.convolution
          [Arg.node 1, Arg.node 2, Arg.null])] = Except.ok true)) :=
  ⟨⟨false, rfl⟩, conv_bias_filters_opposite _ ⟨false, rfl⟩⟩

/-- C6: when the matched original convolution node reaches the metadata
merge with no quantization annotation in its metadata, the merge raises
(`KeyError`) instead of skipping: the lookup at line 393 precedes the dead
membership guard at line 394. -/
theorem conv_merge_missing_annot_raises (meta : NodeMeta) (oa ra : List Arg)
    (h : meta.qAnnot = Option.none) :
    convBranchMerge meta oa ra = Except.error "KeyError: quantization_annotation" := by
  simp [convBranchMerge, h]

/-- Witness for C6 at a node with empty metadata. -/
theorem conv_merge_missing_annot_raises_witness :
    convBranchMerge (NodeMeta.mk Option.none 0) [] [] =
      Except.error "KeyError: quantization_annotation" :=
  conv_merge_missing_annot_raises (NodeMeta.mk Option.none 0) [] [] rfl

/-- C7: (1) on a match map whose entries before the convolution node are
present non-convolution nodes, `_has_conv_bias_filter` returns exactly
whether the convolution's third argument (the bias operand) is not `None`;
(2) on a match map containing no convolution node, both filters raise
instead of returning a boolean. -/
theorem has_conv_bias_filter_spec :
    (∀ (pre : List (Option Node)) (n : Node) (post : List (Option Node)) (a : Arg),
      (∀ m ∈ pre, ∃ k, m = some k ∧ k.target ≠ Target.convolution) →
      n.target = Target.convolution → n.args.get? 2 = some a →
      hasConvBiasFilter (pre ++ some n :: post) = Except.ok (decide (a ≠ Arg.null))) ∧
    (∀ vs : List (Option Node),
      (∀ k : Node, some k ∈ vs → k.target ≠ Target.convolution) →
      (∃ e, hasConvBiasFilter vs = Except.error e) ∧
      (∃ e, noConvBiasFilter vs = Except.error e)) := by
  constructor
  · intro pre
    induction pre with
    | nil =>
      intro n post a _ hn ha
      rw [List.get?_eq_getElem?] at ha
      simp [hasConvBiasFilter, hn, ha]
    | cons m pre ih =>
      intro n post a hpre hn ha
      obtain ⟨k, hk, hkc⟩ := hpre m (by simp)
      subst hk
      simpa [hasConvBiasFilter, hkc] using
        ih n post a (fun m' hm' => hpre m' (by simp [hm'])) hn ha
  · intro vs
    induction vs with
    | nil => exact fun _ => ⟨⟨_, rfl⟩, ⟨_, rfl⟩⟩
    | cons m vs ih =>
      intro h
      cases m with
      | none => exact ⟨⟨_, rfl⟩, ⟨_, rfl⟩⟩
      | some k =>
        have hk : k.target ≠ Target.convolution := h k (by simp)
        obtain ⟨⟨e, he⟩, ⟨e', he'⟩⟩ := ih (fun k' hk' => h k' (by simp [hk']))
        refine ⟨⟨e, ?_⟩, ⟨e', ?_⟩⟩
        · simpa [hasConvBiasFilter, hk] using he
        · simpa [noConvBiasFilter, hasConvBiasFilter, hk] using he'

/-- Witness for C7: a convolution preceded by a batch-norm entry, and a
conv-free match map. -/
theorem has_conv_bias_filter_spec_witness :
    hasConvBiasFilter
      [some (mkNode 1 Op.call_function Target.batch_norm []),
       some (mkNode 0 Op.call_function Target.convolution
         [Arg.node 9, Arg.node 8, Arg.node 7])] =
      Except.ok (decide (Arg.node 7 ≠ Arg.null)) ∧
    ((∃ e, hasConvBiasFilter [some (mkNode 1 Op.call_function Target.batch_norm [])] =
        Except.error e) ∧
     (∃ e, noConvBiasFilter [some (mkNode 1 Op.call_function Target.batch_norm [])] =
        Except.error e)) :=
  ⟨has_conv_bias_filter_spec.1 [some (mkNode 1 Op.call_function Target.batch_norm [])]
      (mkNode 0 Op.call_function Target.convolution [Arg.node 9, Arg.node 8, Arg.node 7])
      [] (Arg.node 7)
      (by intro m hm; rw [List.mem_singleton] at hm; subst hm; exact ⟨_, rfl, by decide⟩)
      rfl rfl,
   has_conv_bias_filter_spec.2 [some (mkNode 1 Op.call_function Target.batch_norm [])]
      (by intro k hk; rw [List.mem_singleton] at hk;
          cases hk; exact (by decide : (mkNode 1 Op.call_function Target.batch_norm []).target ≠ Target.convolution))⟩

/-- Counterexample for C5: with an original annotation holding a single
quantization spec (fewer than three specs) the merge does *not* silently
drop the trailing bias spec — `all_configs[1][1]` raises an `IndexError`,
so the merge fails rather than succeeding. -/
theorem conv_merge_single_spec_raises :
    convBranchMerge singleSpecMeta [] [Arg.node 1, Arg.node 2, Arg.node 3] =
      Except.error "IndexError: list index out of range" ∧
    ¬ ∃ res, convBranchMerge singleSpecMeta [] [Arg.node 1, Arg.node 2, Arg.node 3] =
      Except.ok res := by
  refine ⟨rfl, ?_⟩
  rintro ⟨res, hres⟩
  have h1 : convBranchMerge singleSpecMeta [] [Arg.node 1, Arg.node 2, Arg.node 3] =
      Except.error "IndexError: list index out of range" := rfl
  rw [h1] at hres
  exact Except.noConfusion hres

/-- C5 (amended): when the original annotation has at least two specs and
the rebuilt argument list has at least two operands, the merge succeeds and
re-keys the operand-ordered specs onto the replacement convolution's new
operands in position order; the trailing bias spec is kept exactly when
both the argument list and the spec list have more than two entries, and is
dropped silently otherwise. -/
theorem conv_merge_rekeys_specs (origMeta : NodeMeta) (origArgs replArgs na : List Arg)
    (ann : QAnnot) (h : origMeta.qAnnot = some ann)
    (hna : replArgs.take 3 ++ origArgs.drop 3 = na)
    (h2 : 2 ≤ ann.input_qspec_map.length) (h3 : 2 ≤ na.length) :
    convBranchMerge origMeta origArgs replArgs =
      Except.ok ({ origMeta with qAnnot := some (QAnnot.mk (
          (na.take 2).zip ((ann.input_qspec_map.map Prod.snd).take 2) ++
          (if 2 < na.length ∧ 2 < ann.input_qspec_map.length then
            [(na.getD 2 Arg.null, (ann.input_qspec_map.map Prod.snd).getD 2 0)]
          else []))) }, na) := by
  rcases na with _ | ⟨a0, na⟩
  · simp at h3
  rcases na with _ | ⟨a1, rest⟩
  · simp at h3
  rcases hq : ann.input_qspec_map with _ | ⟨c0, cfg⟩
  · rw [hq] at h2; simp at h2
  rcases cfg with _ | ⟨c1, cs⟩
  · rw [hq] at h2; simp at h2
  rcases rest with _ | ⟨a2, rest'⟩ <;> rcases cs with _ | ⟨c2, cs'⟩
  · simp [convBranchMerge, h, hna, hq]
  · simp [convBranchMerge, h, hna, hq]
  · simp [convBranchMerge, h, hna, hq]
  · have hcond : 2 < (a0 :: a1 :: a2 :: rest').length ∧
        2 < (c0 :: c1 :: c2 :: cs').length := by
      constructor <;> simp
    simp [convBranchMerge, h, hna, hq, hcond]

/-- Witness for the amended C5: a three-spec annotation re-keyed onto a
nine-operand rebuilt argument list keeps the bias spec. -/
theorem conv_merge_rekeys_specs_witness :
    convBranchMerge threeSpecMeta convOrigArgs convReplArgs =
      Except.ok ({ threeSpecMeta with qAnnot := some (QAnnot.mk (
          (convNewArgs.take 2).zip
            (((QAnnot.mk [(Arg.node 0, 7), (Arg.node 1, 8), (Arg.node 2, 9)]).input_qspec_map.map
              Prod.snd).take 2) ++
          (if 2 < convNewArgs.length ∧
              2 < (QAnnot.mk [(Arg.node 0, 7), (Arg.node 1, 8),
                    (Arg.node 2, 9)]).input_qspec_map.length then
            [(convNewArgs.getD 2 Arg.null,
              ((QAnnot.mk [(Arg.node 0, 7), (Arg.node 1, 8),
                (Arg.node 2, 9)]).input_qspec_map.map Prod.snd).getD 2 0)]
          else []))) }, convNewArgs) :=
  conv_merge_rekeys_specs threeSpecMeta convOrigArgs convReplArgs convNewArgs
    (QAnnot.mk [(Arg.node 0, 7), (Arg.node 1, 8), (Arg.node 2, 9)])
    rfl rfl (by decide) (by decide)

/-- C9: the overload-retargeting loop run on the fold-stage match pattern
preserves the node count and, position by position, rewrites exactly the
call-function nodes whose target is one of the four overload-specific
quantize/dequantize operators to the corresponding overload-agnostic
operator, leaving every other node unchanged. -/
theorem fold_pattern_overload_retarget_spec (g : Graph) (i : ℕ) (n : Node)
    (h : g.nodes.get? i = some n) :
    (normalizeQDQTargets g).nodes.length = g.nodes.length ∧
    (n.op = Op.call_function →
      ((n.target = Target.quantize_per_tensor_tensor →
        (normalizeQDQTargets g).nodes.get? i =
          some { n with target := Target.quantize_per_tensor }) ∧
       (n.target = Target.dequantize_per_tensor_tensor →
        (normalizeQDQTargets g).nodes.get? i =
          some { n with target := Target.dequantize_per_tensor }) ∧
       (n.target = Target.quantize_per_channel_default →
        (normalizeQDQTargets g).nodes.get? i =
          some { n with target := Target.quantize_per_channel }) ∧
       (n.target = Target.dequantize_per_channel_default →
        (normalizeQDQTargets g).nodes.get? i =
          some { n with target := Target.dequantize_per_channel }) ∧
       (n.target ≠ Target.quantize_per_tensor_tensor →
        n.target ≠ Target.dequantize_per_tensor_tensor →
        n.target ≠ Target.quantize_per_channel_default →
        n.target ≠ Target.dequantize_per_channel_default →
        (normalizeQDQTargets g).nodes.get? i = some n))) ∧
    (n.op ≠ Op.call_function → (normalizeQDQTargets g).nodes.get? i = some n) := by
  have hm : (normalizeQDQTargets g).nodes.get? i = some (retargetQDQ n) := by
    rw [List.get?_eq_getElem?] at h ⊢
    simp [normalizeQDQTargets, h]
  obtain ⟨nid, nop, ntg, nargs, nmeta⟩ := n
  refine ⟨by simp [normalizeQDQTargets],
    fun hop => ⟨fun ht => ?_, fun ht => ?_, fun ht => ?_, fun ht => ?_,
      fun h1 h2 h3 h4 => ?_⟩,
    fun hop => ?_⟩ <;>
    rw [hm] <;> simp_all [retargetQDQ]

/-- Witness for C9 at a three-node pattern graph: an overload-specific
quantize gets retargeted, an unrelated operator and a placeholder do not. -/
theorem fold_pattern_overload_retarget_spec_witness :
    (normalizeQDQTargets qdqPatternGraph).nodes.length = qdqPatternGraph.nodes.length ∧
    (normalizeQDQTargets qdqPatternGraph).nodes.get? 0 =
      some { mkNode 0 Op.call_function Target.quantize_per_tensor_tensor [Arg.node 9] with
        target := Target.quantize_per_tensor } :=
  ⟨(fold_pattern_overload_retarget_spec qdqPatternGraph 0
      (mkNode 0 Op.call_function Target.quantize_per_tensor_tensor [Arg.node 9]) rfl).1,
   ((fold_pattern_overload_retarget_spec qdqPatternGraph 0
      (mkNode 0 Op.call_function Target.quantize_per_tensor_tensor [Arg.node 9]) rfl).2.1
      rfl).1 rfl⟩

/-- Invariant of the scan of `_get_conv_bn_getitem_nodes`: running it with
accumulators `c? b? g?` succeeds with `(c, b, g)` exactly when the
accumulator followed by the matching call-function nodes of the remaining
list is the corresponding singleton. -/
theorem getConvBnGetitemGo_ok_iff (l : List Node) :
    ∀ (c? b? g? : Option Node) (c b g : Node),
      getConvBnGetitemGo c? b? g? l = Except.ok (c, b, g) ↔
        (c?.toList ++ l.filter isConvCF = [c] ∧
         b?.toList ++ l.filter isBnCF = [b] ∧
         g?.toList ++ l.filter isGiCF = [g]) := by
  induction l with
  | nil =>
    intro c? b? g? c b g
    cases c? <;> cases b? <;> cases g? <;> simp [getConvBnGetitemGo]
  | cons n rest ih =>
    intro c? b? g? c b g
    by_cases hop : n.op = Op.call_function
    · by_cases ht1 : n.target = Target.convolution
      · have hc : isConvCF n = true := by simp [isConvCF, ht1, hop]
        have hb : isBnCF n = false := by simp [isBnCF, ht1]
        have hg : isGiCF n = false := by simp [isGiCF, ht1]
        cases c? with
        | none => simp [getConvBnGetitemGo, hop, ht1, ih, List.filter_cons, hc, hb, hg]
        | some c0 => simp [getConvBnGetitemGo, hop, ht1, List.filter_cons, hc, hb, hg]
      · by_cases ht2 : n.target = Target.batch_norm
        · have hc : isConvCF n = false := by simp [isConvCF, ht2]
          have hb : isBnCF n = true := by simp [isBnCF, ht2, hop]
          have hg : isGiCF n = false := by simp [isGiCF, ht2]
          cases b? with
          | none => simp [getConvBnGetitemGo, hop, ht1, ht2, ih, List.filter_cons, hc, hb, hg]
          | some b0 => simp [getConvBnGetitemGo, hop, ht1, ht2, List.filter_cons, hc, hb, hg]
        · by_cases ht3 : n.target = Target.getitem
          · have hc : isConvCF n = false := by simp [isConvCF, ht3]
            have hb : isBnCF n = false := by simp [isBnCF, ht3]
            have hg : isGiCF n = true := by simp [isGiCF, ht3, hop]
            cases g? with
            | none =>
              simp [getConvBnGetitemGo, hop, ht1, ht2, ht3, ih, List.filter_cons, hc, hb, hg]
            | some g0 =>
              simp [getConvBnGetitemGo, hop, ht1, ht2, ht3, List.filter_cons, hc, hb, hg]
          · have hc : isConvCF n = false := by simp [isConvCF, ht1]
            have hb : isBnCF n = false := by simp [isBnCF, ht2]
            have hg : isGiCF n = false := by simp [isGiCF, ht3]
            simp [getConvBnGetitemGo, hop, ht1, ht2, ht3, ih, List.filter_cons, hc, hb, hg]
    · have hc : isConvCF n = false := by simp [isConvCF, hop]
      have hb : isBnCF n = false := by simp [isBnCF, hop]
      have hg : isGiCF n = false := by simp [isGiCF, hop]
      simp [getConvBnGetitemGo, hop, ih, List.filter_cons, hc, hb, hg]

/-- C8: `_get_conv_bn_getitem_nodes` returns the conv/bn/getitem triple iff
the list contains exactly one call-function node of each of the three kinds
(non-call-function nodes are ignored), and fails with an assertion error
whenever any of the three is absent or duplicated. -/
theorem get_conv_bn_getitem_nodes_spec (nodes : List Node) :
    (∀ c b g, getConvBnGetitemNodes nodes = Except.ok (c, b, g) ↔
      (nodes.filter isConvCF = [c] ∧ nodes.filter isBnCF = [b] ∧
       nodes.filter isGiCF = [g])) ∧
    (¬ ((nodes.filter isConvCF).length = 1 ∧ (nodes.filter isBnCF).length = 1 ∧
        (nodes.filter isGiCF).length = 1) →
      ∃ e, getConvBnGetitemNodes nodes = Except.error e) := by
  have hiff : ∀ c b g, getConvBnGetitemNodes nodes = Except.ok (c, b, g) ↔
      (nodes.filter isConvCF = [c] ∧ nodes.filter isBnCF = [b] ∧
       nodes.filter isGiCF = [g]) := by
    intro c b g
    simpa [getConvBnGetitemNodes] using
      getConvBnGetitemGo_ok_iff nodes Option.none Option.none Option.none c b g
  refine ⟨hiff, fun hlen => ?_⟩
  cases hres : getConvBnGetitemNodes nodes with
  | error e => exact ⟨e, rfl⟩
  | ok t =>
    obtain ⟨c, b, g⟩ := t
    obtain ⟨h1, h2, h3⟩ := (hiff c b g).mp hres
    exact absurd ⟨by rw [h1]; rfl, by rw [h2]; rfl, by rw [h3]; rfl⟩ hlen

/-- Witness for C8 at a four-node list (the `get_attr` node is ignored). -/
theorem get_conv_bn_getitem_nodes_spec_witness :
    getConvBnGetitemNodes cbgeList =
      Except.ok (mkNode 0 Op.call_function Target.convolution [],
        mkNode 1 Op.call_function Target.batch_norm [],
        mkNode 2 Op.call_function Target.getitem []) :=
  ((get_conv_bn_getitem_nodes_spec cbgeList).1 _ _ _).mpr (by decide)

/-- Counterexample for C3: on a zero-match graph containing a dead node,
`_fuse_conv_bn_qat` does *not* return a graph with the same node count —
the unconditional dead-code elimination of line 310 removes the dead node
(3 nodes in, 2 nodes out). -/
theorem fuse_no_match_not_identity_counterexample :
    (∀ pat, M0 deadNodeGraph pat = []) ∧
    fuseConvBnQat M0 AR0 gEmpty gEmpty gEmpty deadNodeGraph =
      Except.ok deadNodeGraphDce ∧
    deadNodeGraphDce.nodes.length = 2 ∧ deadNodeGraph.nodes.length = 3 :=
  ⟨fun _ => rfl, rfl, rfl, rfl⟩

/-- C3 (amended): on a graph already free of dead code, a fusion / fold
pass that finds zero matches returns the graph (and module) unchanged —
same node count, same outputs. -/
theorem fuse_fold_no_match_dce_stable_identity
    (M : Graph → Graph → List MatchR)
    (AR : Graph → Graph → MatchR → Graph × ReplacedPattern)
    (p1 p2 p3 q1 q2 q3 q4 : Graph) {C K : ℕ} (gm : GraphModule C K)
    (hdce : eliminateDeadCode gm.graph = gm.graph)
    (hM : ∀ pat, M gm.graph pat = []) :
    fuseConvBnQat M AR p1 p2 p3 gm.graph = Except.ok gm.graph ∧
    foldConvBnQat M AR q1 q2 q3 q4 gm = Except.ok gm := by
  constructor
  · simp [fuseConvBnQat, replacePatternWithFilters, hdce, hM, postProcessAll,
      pure, Except.pure, bind, Except.bind]
  · simp [foldConvBnQat, replacePatternWithFilters, hdce, hM,
      pure, Except.pure, bind, Except.bind]

/-- Witness for the amended C3 at a dead-code-free two-node module and the
empty matcher. -/
theorem fuse_fold_no_match_dce_stable_identity_witness :
    fuseConvBnQat M0 AR0 gEmpty gEmpty gEmpty gmStable.graph =
      Except.ok gmStable.graph ∧
    foldConvBnQat M0 AR0 gEmpty gEmpty gEmpty gEmpty gmStable =
      Except.ok gmStable :=
  fuse_fold_no_match_dce_stable_identity M0 AR0 gEmpty gEmpty gEmpty gEmpty gEmpty
    gEmpty gEmpty gmStable rfl (fun _ => rfl)

/-- C10: both passes run dead-code elimination (and recompilation) before
any pattern matching, so even a call that finds zero matches removes nodes
that were dead in the input graph: on a four-node input with two dead
nodes, both passes return a two-node graph. -/
theorem fuse_fold_run_dce_before_matching :
    (∀ g pat, M0 g pat = []) ∧
    (fuseConvBnQat M0 AR0 gEmpty gEmpty gEmpty deadNodeGraph2).map
      (fun g => g.nodes.length) = Except.ok 2 ∧
    deadNodeGraph2.nodes.length = 4 ∧
    (foldConvBnQat M0 AR0 gEmpty gEmpty gEmpty gEmpty gm10).map
      (fun gm => gm.graph.nodes.length) = Except.ok 2 ∧
    gm10.graph.nodes.length = 4 :=
  ⟨fun _ _ => rfl, rfl, rfl, rfl, rfl⟩

/-- Splitting the bias out of a convolution. -/
theorem conv2d_bias_split {N Cin Cout H W KH KW : ℕ}
    (x : Fin N → Fin Cin → Fin H → Fin W → ℝ)
    (w : Fin Cout → Fin Cin → Fin KH → Fin KW → ℝ) (b : Fin Cout → ℝ)
    (n : Fin N) (co : Fin Cout) (i : Fin (H + 1 - KH)) (j : Fin (W + 1 - KW)) :
    conv2d x w b n co i j = conv2d x w (fun _ => 0) n co i j + b co := by
  simp only [conv2d]
  ring

/-- Scaling the weight per output channel scales the (bias-free)
convolution output by the same per-channel factor. -/
theorem conv2d_smul_weight {N Cin Cout H W KH KW : ℕ}
    (x : Fin N → Fin Cin → Fin H → Fin W → ℝ)
    (w : Fin Cout → Fin Cin → Fin KH → Fin KW → ℝ) (s : Fin Cout → ℝ)
    (n : Fin N) (co : Fin Cout) (i : Fin (H + 1 - KH)) (j : Fin (W + 1 - KW)) :
    conv2d x (fun co' ci ki kj => w co' ci ki kj * s co') (fun _ => 0) n co i j =
      s co * conv2d x w (fun _ => 0) n co i j := by
  simp only [conv2d, zero_add]
  rw [Finset.mul_sum]
  refine Finset.sum_congr rfl fun ci _ => ?_
  rw [Finset.mul_sum]
  refine Finset.sum_congr rfl fun ki _ => ?_
  rw [Finset.mul_sum]
  refine Finset.sum_congr rfl fun kj _ => ?_
  ring

/-- The batch mean of a channel depends only on that channel's slice. -/
theorem bnMean_congr {N C OH OW : ℕ}
    {y z : Fin N → Fin C → Fin OH → Fin OW → ℝ} {c : Fin C}
    (h : ∀ n i j, y n c i j = z n c i j) : bnMean y c = bnMean z c := by
  unfold bnMean
  congr 1
  exact Finset.sum_congr rfl fun n _ => Finset.sum_congr rfl fun i _ =>
    Finset.sum_congr rfl fun j _ => h n i j

/-- The batch variance of a channel depends only on that channel's slice. -/
theorem bnVar_congr {N C OH OW : ℕ}
    {y z : Fin N → Fin C → Fin OH → Fin OW → ℝ} {c : Fin C}
    (h : ∀ n i j, y n c i j = z n c i j) : bnVar y c = bnVar z c := by
  unfold bnVar
  congr 1
  exact Finset.sum_congr rfl fun n _ => Finset.sum_congr rfl fun i _ =>
    Finset.sum_congr rfl fun j _ => by rw [h n i j, bnMean_congr h]

/-- Training-mode batch norm is channel-local: equal channel slices give
equal outputs on that channel. -/
theorem batchNormTrain_congr {N C OH OW : ℕ}
    {y z : Fin N → Fin C → Fin OH → Fin OW → ℝ} {c : Fin C}
    (rm rv g be : Fin C → ℝ) (eps : ℝ)
    (h : ∀ n i j, y n c i j = z n c i j) (n : Fin N) (i : Fin OH) (j : Fin OW) :
    batchNormTrain y rm rv g be eps n c i j = batchNormTrain z rm rv g be eps n c i j := by
  unfold batchNormTrain
  rw [h n i j, bnMean_congr h, bnVar_congr h]

/-- With a zero batch-norm weight on a channel, the training-mode output on
that channel is the batch-norm bias, whatever the input. -/
theorem batchNormTrain_weight_zero {N C OH OW : ℕ}
    {y : Fin N → Fin C → Fin OH → Fin OW → ℝ} {c : Fin C}
    (rm rv g be : Fin C → ℝ) (eps : ℝ) (hg : g c = 0)
    (n : Fin N) (i : Fin OH) (j : Fin OW) :
    batchNormTrain y rm rv g be eps n c i j = be c := by
  unfold batchNormTrain
  rw [hg, mul_zero, zero_add]

/-- C1: for nonnegative running variances, the fused forward pass built by
`_qat_conv2d_bn_pattern` agrees with the unfused forward pass built by
`_conv2d_bn_pattern` within `1e-5` absolute tolerance (in fact exactly):
per channel, either the batch-norm weight vanishes and both sides reduce to
the batch-norm bias, or the per-channel scale is nonzero and
`conv2d(x, w*scale, 0)/scale + b = conv2d(x, w, b)` exactly, after which
both sides apply the same training-mode batch norm. -/
theorem qat_conv2d_bn_pattern_matches_unfused {N Cin Cout H W KH KW : ℕ}
    (x : Fin N → Fin Cin → Fin H → Fin W → ℝ)
    (w : Fin Cout → Fin Cin → Fin KH → Fin KW → ℝ)
    (b g be m v : Fin Cout → ℝ) (hv : ∀ c, 0 ≤ v c)
    (n : Fin N) (c : Fin Cout) (i : Fin (H + 1 - KH)) (j : Fin (W + 1 - KW)) :
    |qatConvBnPattern x w b g be m v n c i j -
      convBnPattern x w b g be m v n c i j| ≤ 1e-5 := by
  have key : qatConvBnPattern x w b g be m v n c i j =
      convBnPattern x w b g be m v n c i j := by
    unfold qatConvBnPattern convBnPattern
    by_cases hg : g c = 0
    · rw [batchNormTrain_weight_zero m v g be _ hg,
        batchNormTrain_weight_zero m v g be _ hg]
    · have hstd : 0 < Real.sqrt (v c + 1e-5) := by
        apply Real.sqrt_pos.mpr
        have h0 := hv c
        have h5 : (0 : ℝ) < 1e-5 := by norm_num
        linarith
    -- the per-channel scale is nonzero, so the rescale cancels exactly
      have hs : scaleFactor g v c ≠ 0 := div_ne_zero hg (ne_of_gt hstd)
      refine batchNormTrain_congr m v g be _ (fun n' i' j' => ?_) n i j
      rw [conv2d_smul_weight, mul_comm, mul_div_assoc, div_self hs, mul_one,
        ← conv2d_bias_split]
  rw [key, sub_self, abs_zero]
  norm_num

/-- C2: whenever the per-replacement fold of `_fold_conv_bn_qat` succeeds,
the replacement subgraph's batch-norm node is entirely absent from the
resulting graph, and the stored weight and bias of the convolution equal
the closed-form fold — `folded_weight = weight * scale_factor` broadcast
over the output-channel axis and
`folded_bias = bn_bias + (bias - bn_running_mean) * scale_factor` with
`scale_factor = bn_weight / sqrt(bn_running_var + eps)` — within `1e-4`
relative tolerance (in fact exactly); the weight's dequantize node may be
the per-tensor or the per-channel overload, covering both granularities. -/
theorem fold_step_folds_bn_and_removes_bn_node {C K : ℕ}
    (gm gm' : GraphModule C K) (r : ReplacedPattern)
    (h : foldStep gm r = Except.ok gm') : FoldStepSpec gm gm' r := by
  unfold foldStep at h
  rcases hres : getConvBnGetitemNodes r.replacements with e | ⟨conv, bn, gi⟩ <;>
    rw [hres] at h
  · simp at h
  dsimp only at h
  rcases h1 : conv.args.get? 1 with _ | a1 <;> rw [h1] at h
  · simp at h
  rcases a1 with dqId | v | b | _
  rotate_left
  · simp at h
  · simp at h
  · simp at h
  dsimp only at h
  rcases h2 : gm.graph.find? dqId with _ | dqNode <;> rw [h2] at h
  · simp at h
  dsimp only at h
  by_cases h3 : dqNode.target = Target.dequantize_per_tensor_tensor ∨
      dqNode.target = Target.dequantize_per_channel_default
  case neg => rw [if_neg h3] at h; simp at h
  rw [if_pos h3] at h
  rcases h4 : dqNode.args.get? 0 with _ | a2 <;> rw [h4] at h
  · simp at h
  rcases a2 with qId | v | b | _
  rotate_left
  · simp at h
  · simp at h
  · simp at h
  dsimp only at h
  rcases h5 : gm.graph.find? qId with _ | qNode <;> rw [h5] at h
  · simp at h
  dsimp only at h
  by_cases h6 : qNode.target = Target.quantize_per_tensor_tensor ∨
      qNode.target = Target.quantize_per_channel_default
  case neg => rw [if_neg h6] at h; simp at h
  rw [if_pos h6] at h
  rcases h7 : qNode.args.get? 0 with _ | a3 <;> rw [h7] at h
  · simp at h
  rcases a3 with wId | v | b | _
  rotate_left
  · simp at h
  · simp at h
  · simp at h
  dsimp only at h
  rcases h8 : gm.graph.find? wId with _ | wNode <;> rw [h8] at h
  · simp at h
  dsimp only at h
  by_cases h9 : wNode.op = Op.get_attr
  case neg => rw [if_neg h9] at h; simp at h
  rw [if_pos h9] at h
  rcases h10 : conv.args.get? 2 with _ | a4 <;> rw [h10] at h
  · simp at h
  rcases a4 with bId | v | b | _
  rotate_left
  · simp at h
  · simp at h
  · simp at h
  dsimp only at h
  rcases h11 : gm.graph.find? bId with _ | biasNode <;> rw [h11] at h
  · simp at h
  dsimp only at h
  unfold foldBnWeightsIntoConvNode at h
  split at h
  all_goals try (solve | simp at h)
  rename_i wName bName hwt hbt
  split at h
  all_goals try (solve | simp at h)
  rename_i gwId gbId mId vId eps ha1 ha2 ha3 ha4 ha7
  split at h
  all_goals try (solve | simp at h)
  rename_i gwN gbN mN vN hf1 hf2 hf3 hf4
  split at h
  all_goals try (solve | simp at h)
  rename_i gwName gbName mName vName ht1 ht2 ht3 ht4
  rw [Except.ok.injEq] at h
  subst h
  refine ⟨conv, bn, gi, hres, ?_, wName, bName, gwName, gbName, mName, vName, eps,
    ⟨dqId, qId, wId, dqNode, qNode, wNode,
      h1, h2, h3, h4, h5, h6, h7, h8, h9, hwt⟩,
    ⟨bId, biasNode, h10, h11, hbt⟩,
    ⟨gwId, gbId, mId, vId, gwN, gbN, mN, vN,
      ha1, hf1, ht1, ha2, hf2, ht2, ha3, hf3, ht3, ha4, hf4, ht4, ha7⟩,
    ?_, ?_⟩
  · intro n hn
    dsimp only at hn
    simp only [List.mem_map, List.mem_filter] at hn
    obtain ⟨m, ⟨hmem, hp⟩, rfl⟩ := hn
    show m.id ≠ bn.id
    intro hc
    exact (of_decide_eq_true hp) (Or.inl hc)
  · intro c k
    dsimp only
    rw [if_pos rfl]
    rw [sub_self, abs_zero]
    positivity
  · intro c
    dsimp only
    rw [if_pos rfl]
    rw [sub_self, abs_zero]
    positivity

/-- Witness for C2 at the concrete quantized conv + bn module `gmW`. -/
theorem fold_step_folds_bn_and_removes_bn_node_witness :
    foldStep gmW rW = Except.ok gmW' ∧ FoldStepSpec gmW gmW' rW :=
  ⟨rfl, fold_step_folds_bn_and_removes_bn_node gmW gmW' rW rfl⟩

/-- Witness for C1 at all-size-one tensors with zero running statistics. -/
theorem qat_conv2d_bn_pattern_matches_unfused_witness :
    (∀ c : Fin 1, 0 ≤ zeroV c) ∧
    |qatConvBnPattern oneT oneT oneV oneV oneV zeroV zeroV 0 0 0 0 -
      convBnPattern oneT oneT oneV oneV oneV zeroV zeroV 0 0 0 0| ≤ 1e-5 :=
  ⟨fun _ => le_refl 0,
   qat_conv2d_bn_pattern_matches_unfused oneT oneT oneV oneV oneV zeroV zeroV
     (fun _ => le_refl 0) 0 0 0 0⟩

end QatUtils
